import Mathlib

/-!
Verification development for the `cssselect2` selector compiler
(`cssselect2/compiler.py`).

The compiler translates a parsed CSS selector tree into a boolean
expression over a document element, together with metadata
(`never_matches`, specificity, pseudo-element, fast-reject hints).
The original emits Python source text and `eval`s it; here the emitted
expression language is embedded deeply as `GExpr` with evaluator
`evalG`, so that the three-state simplification (`'0'` / `'1'` /
general expression) and the shape of the generated code are preserved
faithfully.  The element tree adapter (`cssselect2.tree`, not part of
the compiler) is modelled from the spec as the read-only interface the
generated code consumes.
-/

/-- ElemData holds the non-navigational fields of an element, modelled
from the spec: the element adapter (external to the compiler) exposes
local name, nullable namespace URL, nullable id, class-name set,
namespaced attribute lookup, nullable language tag, the etree tag, the
element's index among its etree siblings, the tags of the full etree
sibling list, and the has-children / has-text checks. -/
structure ElemData where
  local_name : String
  namespace_url : Option String
  id : Option String
  classes : List String
  attrs : List (String × String)
  lang : Option String
  tag : String
  index : Nat
  etree_siblings : List String
  has_children : Bool
  has_text : Bool
deriving Repr

/-- Elem is the element-tree interface consumed by compiled matchers,
modelled from the spec: an optional parent reference, an optional
immediately-preceding-sibling reference, and the remaining data. -/
inductive Elem : Type where
  | node (parent : Option Elem) (previous : Option Elem) (data : ElemData) : Elem

def Elem.parent : Elem → Option Elem
  | .node p _ _ => p

def Elem.previous : Elem → Option Elem
  | .node _ q _ => q

def Elem.data : Elem → ElemData
  | .node _ _ d => d

def Elem.local_name (el : Elem) : String := el.data.local_name

def Elem.namespace_url (el : Elem) : Option String := el.data.namespace_url

def Elem.id (el : Elem) : Option String := el.data.id

def Elem.classes (el : Elem) : List String := el.data.classes

def Elem.lang (el : Elem) : Option String := el.data.lang

def Elem.tag (el : Elem) : String := el.data.tag

def Elem.index (el : Elem) : Nat := el.data.index

def Elem.etree_siblings (el : Elem) : List String := el.data.etree_siblings

def Elem.has_children (el : Elem) : Bool := el.data.has_children

def Elem.has_text (el : Elem) : Bool := el.data.has_text

/-- Attribute lookup by (already namespaced) key; `None` default. -/
def Elem.get_attr (el : Elem) (key : String) : Option String :=
  el.data.attrs.lookup key

/-- Attribute lookup with an explicit default value. -/
def Elem.get_attr_d (el : Elem) (key dflt : String) : String :=
  (el.get_attr key).getD dflt

/-- Strict ancestors, nearest first (the spec's `iter_ancestors`). -/
def Elem.iter_ancestors : Elem → List Elem
  | .node none _ _ => []
  | .node (some p) _ _ => p :: p.iter_ancestors

/-- Preceding siblings, nearest first (the spec's
`iter_previous_siblings`). -/
def Elem.iter_previous_siblings : Elem → List Elem
  | .node _ none _ => []
  | .node _ (some q) _ => q :: q.iter_previous_siblings

/-- Whitespace set of CSS (`[^ \t\r\n\f]+` in `split_whitespace`). -/
def isCssSpace (c : Char) : Bool :=
  c = ' ' || c = '\t' || c = '\r' || c = '\n' || c = '\x0c'

/-- ASCII whitespace set of Python `str.split` / `str.strip`. -/
def isPySpace (c : Char) : Bool :=
  c = ' ' || c = '\t' || c = '\r' || c = '\n' || c = '\x0b' || c = '\x0c'

/-- Maximal runs of non-whitespace characters, in order (regex
`findall` of one-or-more non-whitespace, and Python `str.split`). -/
def splitW (p : Char → Bool) : List Char → List (List Char)
  | [] => []
  | c :: cs =>
    if p c then splitW p cs
    else (c :: cs.takeWhile (fun d => !p d)) :: splitW p (cs.dropWhile (fun d => !p d))
termination_by l => l.length
decreasing_by
  · simp only [List.length_cons]; omega
  · simp only [List.length_cons]
    exact Nat.lt_succ_of_le (List.dropWhile_sublist _).length_le

/-- Strip leading and trailing characters satisfying `p`. -/
def stripW (p : Char → Bool) (l : List Char) : List Char :=
  ((l.dropWhile p).reverse.dropWhile p).reverse

/-- The module-level `split_whitespace` helper (CSS whitespace). -/
def split_whitespace (s : String) : List String :=
  (splitW isCssSpace s.toList).map String.mk

/-- Python `value.split()` restricted to ASCII whitespace. -/
def pySplit (s : String) : List String :=
  (splitW isPySpace s.toList).map String.mk

/-- Python `value.strip()` restricted to ASCII whitespace. -/
def pyStrip (s : String) : String :=
  String.mk (stripW isPySpace s.toList)

/-- Substring test: `needle` occurs contiguously in the second list
(Python `needle in hay`). -/
def containsSub (needle : List Char) : List Char → Bool
  | [] => needle.isEmpty
  | c :: t => needle.isPrefixOf (c :: t) || containsSub needle t

/-- Python `needle in hay` on strings. -/
def strContains (hay needle : String) : Bool :=
  containsSub needle.toList hay.toList

/-- Tokens produced by the external tinycss2 tokenizer, as consumed by
`:lang()` argument validation: a type tag and a value. -/
structure VToken where
  type : String
  value : String
deriving Repr, DecidableEq

/-- FArgs models the argument tokens of a functional pseudo-class.
Modelled from the spec: `parse_nth` of tinycss2 is an external
collaborator, so the `(A, B)` pair it would return for these tokens is
carried alongside them (`none` when the arguments are not a valid
`nth` expression). -/
structure FArgs where
  tokens : List VToken
  nth : Option (Int × Int)
deriving Repr, DecidableEq

/-- Selector AST produced by the external parser (`cssselect2.parser`),
modelled from the spec's data model.  `compound` covers both
`CompoundSelector` (`isNeg = false`) and its `NegationSelector`
variant (`isNeg = true`); combinators and attribute operators stay
strings because the compiler dispatches on strings and reports unknown
ones as errors. -/
inductive Selector : Type where
  | combined (left : Selector) (combinator : String) (right : Selector)
  | compound (isNeg : Bool) (simple_selectors : List Selector)
  | localName (name : String)
  | namespaceSel (url : String)
  | classSel (name : String)
  | idSel (ident : String)
  | attrib (ns : Option String) (name : String) (op : Option String) (value : String)
  | pseudoClass (name : String)
  | functionalPseudoClass (name : String) (args : FArgs)

/-- Compile-time failures of `_compile_node` (the `SelectorError`s it
raises, plus the `NotImplementedError` for any-namespace attribute
selectors). -/
inductive SelectorError : Type where
  | unknownCombinator (s : String)
  | unknownAttrOperator (s : String)
  | unknownPseudoClass (s : String)
  | invalidLangArgs
  | invalidNthArgs (name : String)
  | notImplementedAnyNamespace
deriving Repr, DecidableEq

/-- Deep embedding of the boolean expressions `_compile_node` emits as
Python source.  `lit0` / `lit1` are the literal `'0'` / `'1'` strings
the simplification logic compares against; the four search forms are
the generator expressions built for combinators; `and2` is the binary
`(right) and (left)` conjunction of a combined selector (right operand
first, as emitted); `atom` is any simple test on the current element. -/
inductive GExpr : Type where
  | lit0 : GExpr
  | lit1 : GExpr
  | parentExists : GExpr
  | previousExists : GExpr
  | anyAncestor (e : GExpr) : GExpr
  | parentTest (e : GExpr) : GExpr
  | previousTest (e : GExpr) : GExpr
  | anyPrevSibling (e : GExpr) : GExpr
  | and2 (r l : GExpr) : GExpr
  | neg (e : GExpr) : GExpr
  | atom (f : Elem → Bool) : GExpr

/-- Discriminator for the literal-false constant (`source == '0'`). -/
def GExpr.isL0 : GExpr → Bool
  | .lit0 => true
  | _ => false

/-- Discriminator for the literal-true constant (`source == '1'`). -/
def GExpr.isL1 : GExpr → Bool
  | .lit1 => true
  | _ => false

/-- Evaluation of an emitted expression at an element, following the
Python semantics of the generated code: `and` is evaluated left
operand first (for `and2` that is the selector's right-hand side);
the `next(... for el in [el.parent])` forms test existence then rebind
`el`; the `any(...)` forms search the ancestor / preceding-sibling
streams. -/
def evalG : GExpr → Elem → Bool
  | .lit0, _ => false
  | .lit1, _ => true
  | .parentExists, el => el.parent.isSome
  | .previousExists, el => el.previous.isSome
  | .anyAncestor e, el => el.iter_ancestors.any (fun a => evalG e a)
  | .parentTest e, el =>
    match el.parent with
    | none => false
    | some p => evalG e p
  | .previousTest e, el =>
    match el.previous with
    | none => false
    | some q => evalG e q
  | .anyPrevSibling e, el => el.iter_previous_siblings.any (fun q => evalG e q)
  | .and2 r l, el => evalG r el && evalG l el
  | .neg e, el => !(evalG e el)
  | .atom f, el => f el

/-- XHTML namespace marker prepended by `html_tag_eq` (the etree tag
of a namespaced element is `\x7burl\x7dlocal`). -/
def xhtmlNS : String := "\x7bhttp://www.w3.org/1999/xhtml\x7d"

/-- The test emitted by `html_tag_eq`: the etree tag equals the
XHTML-namespaced form of one of the given local names. -/
def html_tag_eq (local_names : List String) (el : Elem) : Bool :=
  local_names.any (fun n => el.tag == xhtmlNS ++ n)

mutual

/-- Translation of `_compile_node`: returns the emitted boolean
expression for one selector node, or the compile-time error the
original raises.  Structure, case order and the three-state
simplifications follow the source line by line. -/
def compileNode : Selector → Except SelectorError GExpr
  | .combined left combinator right => do
    let left_inside ← compileNode left
    if left_inside.isL0 then
      pure .lit0
    else do
      let lft ←
        if left_inside.isL1 then
          if combinator = " " || combinator = ">" then
            pure GExpr.parentExists
          else if combinator = "~" || combinator = "+" then
            pure GExpr.previousExists
          else
            throw (SelectorError.unknownCombinator combinator)
        else if combinator = " " then
          pure (GExpr.anyAncestor left_inside)
        else if combinator = ">" then
          pure (GExpr.parentTest left_inside)
        else if combinator = "+" then
          pure (GExpr.previousTest left_inside)
        else if combinator = "~" then
          pure (GExpr.anyPrevSibling left_inside)
        else
          throw (SelectorError.unknownCombinator combinator)
      let right_c ← compileNode right
      if right_c.isL0 then
        pure .lit0
      else if right_c.isL1 then
        pure lft
      else
        pure (GExpr.and2 right_c lft)
  | .compound isNeg simple_selectors => do
    let compiled ← compileList simple_selectors
    let sub_expressions := compiled.filter (fun e => !e.isL1)
    let test :=
      match sub_expressions with
      | [e] => e
      | other =>
        if other.any (fun e => e.isL0) then GExpr.lit0
        else
          match other with
          | [] => GExpr.lit1
          | e :: es => es.foldl GExpr.and2 e
    if isNeg then
      if test.isL0 then pure .lit1
      else if test.isL1 then pure .lit0
      else pure (GExpr.neg test)
    else
      pure test
  | .localName name =>
    pure (.atom (fun el => el.local_name == name))
  | .namespaceSel url =>
    pure (.atom (fun el => el.namespace_url == some url))
  | .classSel name =>
    pure (.atom (fun el => el.classes.contains name))
  | .idSel ident =>
    pure (.atom (fun el => el.id == some ident))
  | .attrib ns name op value =>
    match ns with
    | some nsv =>
      let key := if nsv ≠ "" then "\x7b" ++ nsv ++ "\x7d" ++ name else name
      match op with
      | none =>
        pure (.atom (fun el => (el.get_attr key).isSome))
      | some "=" =>
        pure (.atom (fun el => el.get_attr key == some value))
      | some "~=" =>
        if (pySplit value).length != 1 || pyStrip value != value then
          pure .lit0
        else
          pure (.atom (fun el => (split_whitespace (el.get_attr_d key "")).contains value))
      | some "|=" =>
        pure (.atom (fun el =>
          match el.get_attr key with
          | none => false
          | some v => v == value || v.startsWith (value ++ "-")))
      | some "^=" =>
        if value ≠ "" then
          pure (.atom (fun el => (el.get_attr_d key "").startsWith value))
        else
          pure .lit0
      | some "$=" =>
        if value ≠ "" then
          pure (.atom (fun el => (el.get_attr_d key "").endsWith value))
        else
          pure .lit0
      | some "*=" =>
        if value ≠ "" then
          pure (.atom (fun el => strContains (el.get_attr_d key "") value))
        else
          pure .lit0
      | some other =>
        throw (SelectorError.unknownAttrOperator other)
    | none =>
      throw SelectorError.notImplementedAnyNamespace
  | .pseudoClass name =>
    if name = "link" then
      pure (.atom (fun el =>
        html_tag_eq ["a", "area", "link"] el && (el.get_attr "href").isSome))
    else if name = "enabled" then
      pure (.atom (fun el =>
        (html_tag_eq ["button", "input", "select", "textarea",
                      "option", "optgroup", "menuitem", "fieldset"] el &&
         (el.get_attr "disabled").isNone) ||
        (html_tag_eq ["a", "area", "link"] el &&
         (el.get_attr "href").isSome)))
    else if name = "disabled" then
      pure (.atom (fun el =>
        html_tag_eq ["button", "input", "select", "textarea",
                     "option", "optgroup", "menuitem", "fieldset"] el &&
        (el.get_attr "disabled").isSome))
    else if name = "checked" then
      pure (.atom (fun el =>
        (html_tag_eq ["input", "menuitem"] el &&
         (el.get_attr "checked").isSome) ||
        (html_tag_eq ["option"] el &&
         (el.get_attr "selected").isSome)))
    else if name = "visited" || name = "hover" || name = "active" ||
            name = "focus" || name = "target" then
      pure .lit0
    else if name = "root" then
      pure (.atom (fun el => el.parent.isNone))
    else if name = "first-child" then
      pure (.atom (fun el => el.index == 0))
    else if name = "last-child" then
      pure (.atom (fun el => el.index + 1 == el.etree_siblings.length))
    else if name = "first-of-type" then
      pure (.atom (fun el =>
        (el.etree_siblings.take el.index).all (fun s => s != el.tag)))
    else if name = "last-of-type" then
      pure (.atom (fun el =>
        (el.etree_siblings.drop (el.index + 1)).all (fun s => s != el.tag)))
    else if name = "only-child" then
      pure (.atom (fun el => el.etree_siblings.length == 1))
    else if name = "only-of-type" then
      pure (.atom (fun el =>
        (List.range el.etree_siblings.length).all (fun i =>
          el.etree_siblings.getD i "" != el.tag || i == el.index)))
    else if name = "empty" then
      pure (.atom (fun el => !(el.has_children || el.has_text)))
    else
      throw (SelectorError.unknownPseudoClass name)
  | .functionalPseudoClass name args =>
    if name = "lang" then
      let tokens := args.tokens.filter (fun t => t.type != "whitespace")
      match tokens with
      | [t] =>
        if t.type = "ident" then
          let lang := t.value
          pure (.atom (fun el =>
            el.lang == some lang ||
            (match el.lang with
             | none => false
             | some v => v.startsWith (lang ++ "-"))))
        else
          throw SelectorError.invalidLangArgs
      | _ => throw SelectorError.invalidLangArgs
    else
      let countOpt : Option (Elem → Int) :=
        if name = "nth-child" then
          some (fun el => (el.index : Int))
        else if name = "nth-last-child" then
          some (fun el => (el.etree_siblings.length : Int) - el.index - 1)
        else if name = "nth-of-type" then
          some (fun el =>
            (((el.etree_siblings.take el.index).filter
               (fun s => s == el.tag)).length : Int))
        else if name = "nth-last-of-type" then
          some (fun el =>
            (((el.etree_siblings.drop (el.index + 1)).filter
               (fun s => s == el.tag)).length : Int))
        else
          none
      match countOpt with
      | none => throw (SelectorError.unknownPseudoClass name)
      | some count =>
        match args.nth with
        | none => throw (SelectorError.invalidNthArgs name)
        | some (a, b) =>
          let B := b - 1
          if a = 0 then
            pure (.atom (fun el => count el == B))
          else
            pure (.atom (fun el =>
              Int.fmod (count el - B) a == 0 &&
              decide (0 ≤ Int.fdiv (count el - B) a)))

/-- Left-to-right compilation of a list of sub-selectors, propagating
the first error (Python's `map` consumed by a list comprehension). -/
def compileList : List Selector → Except SelectorError (List GExpr)
  | [] => pure []
  | s :: t => do
    let e ← compileNode s
    let es ← compileList t
    pure (e :: es)

end

/-- Output of the external parser for one selector, as consumed by
`CompiledSelector.__init__`: the parsed tree plus the specificity and
pseudo-element it extracted. -/
structure ParsedSelector where
  parsed_tree : Selector
  specificity : Nat × Nat × Nat
  pseudo_element : Option String

/-- Compiled artifact: matcher, never-matches flag, passthrough
metadata and the four fast-reject hints. -/
structure CompiledSelector where
  never_matches : Bool
  test : Elem → Bool
  specificity : Nat × Nat × Nat
  pseudo_element : Option String
  id : Option String
  class_name : Option String
  local_name : Option String
  namespaceHint : Option String

/-- Hint-extraction loop of `CompiledSelector.__init__`: iterate the
subject compound's simple selectors in order, each ID / class / local
name / namespace selector overwriting its slot. -/
def extractHints (simples : List Selector) :
    Option String × Option String × Option String × Option String :=
  simples.foldl
    (fun acc s =>
      match s with
      | .idSel i => (some i, acc.2.1, acc.2.2.1, acc.2.2.2)
      | .classSel c => (acc.1, some c, acc.2.2.1, acc.2.2.2)
      | .localName n => (acc.1, acc.2.1, some n, acc.2.2.2)
      | .namespaceSel u => (acc.1, acc.2.1, acc.2.2.1, some u)
      | _ => acc)
    (none, none, none, none)

/-- Simple selectors of the subject node.  Modelled from the spec: the
external parser guarantees the node reached after unwrapping one
combinator layer is a compound, so only the compound case arises; on
other nodes (which the parser never produces and on which the
original's attribute access would fail) the empty list is returned. -/
def subjectSimples : Selector → List Selector
  | .compound _ ss => ss
  | _ => []

/-- Subject node used for hint extraction: the right side of a
top-level combined selector, otherwise the tree itself. -/
def subjectNode : Selector → Selector
  | .combined _ _ r => r
  | t => t

/-- Translation of `CompiledSelector.__init__`: compile the tree, set
`never_matches` iff the source is the literal `'0'`, build the matcher
from the emitted expression, pass through specificity and
pseudo-element, and run the hint-extraction loop on the subject
compound (the right side of a top-level combined selector). -/
def compileSelector (ps : ParsedSelector) : Except SelectorError CompiledSelector := do
  let source ← compileNode ps.parsed_tree
  let hints := extractHints (subjectSimples (subjectNode ps.parsed_tree))
  pure
    { never_matches := source.isL0
      test := fun el => evalG source el
      specificity := ps.specificity
      pseudo_element := ps.pseudo_element
      id := hints.1
      class_name := hints.2.1
      local_name := hints.2.2.1
      namespaceHint := hints.2.2.2 }

/-- Result of compiling a selector node and running the matcher on one
element: `none` when compilation fails, otherwise the matcher's
verdict. -/
def runSelector (s : Selector) (el : Elem) : Option Bool :=
  (compileNode s).toOption.map (fun e => evalG e el)

/-! Small helper lemmas about the monadic plumbing. -/

theorem exceptBind_ok {ε α β : Type} (a : α) (f : α → Except ε β) :
    (Except.ok a >>= f) = f a := rfl

theorem exceptBind_error {ε α β : Type} (e : ε) (f : α → Except ε β) :
    ((Except.error e : Except ε α) >>= f) = Except.error e := rfl

/-- Concrete plain element used by witness statements. -/
def elDiv : Elem :=
  .node none none ⟨"div", none, none, [], [], none, "div", 0, ["div"], false, false⟩

/-- C8: the pseudo-classes `:visited`, `:hover`, `:active`, `:focus`
and `:target` each compile to the literal-false constant, and the
resulting matcher returns false on every element (it never consults
any document or interaction state: the emitted expression is the bare
literal `'0'`). -/
theorem interactive_pseudo_classes_compile_to_false :
    (compileNode (.pseudoClass "visited") = .ok .lit0 ∧
      ∀ el, runSelector (.pseudoClass "visited") el = some false) ∧
    (compileNode (.pseudoClass "hover") = .ok .lit0 ∧
      ∀ el, runSelector (.pseudoClass "hover") el = some false) ∧
    (compileNode (.pseudoClass "active") = .ok .lit0 ∧
      ∀ el, runSelector (.pseudoClass "active") el = some false) ∧
    (compileNode (.pseudoClass "focus") = .ok .lit0 ∧
      ∀ el, runSelector (.pseudoClass "focus") el = some false) ∧
    (compileNode (.pseudoClass "target") = .ok .lit0 ∧
      ∀ el, runSelector (.pseudoClass "target") el = some false) :=
  ⟨⟨rfl, fun _ => rfl⟩, ⟨rfl, fun _ => rfl⟩, ⟨rfl, fun _ => rfl⟩,
   ⟨rfl, fun _ => rfl⟩, ⟨rfl, fun _ => rfl⟩⟩

/-- C6: an attribute selector with namespace `None` (any namespace)
fails at compile time with the unsupported-feature error, both at the
expression-builder level and when building a `CompiledSelector`, for
every name, operator and value; no matcher is ever produced for it. -/
theorem any_namespace_attribute_fails (name : String) (op : Option String)
    (value : String) (spec : Nat × Nat × Nat) (pe : Option String) :
    compileNode (.attrib none name op value) =
      .error .notImplementedAnyNamespace ∧
    compileSelector ⟨.attrib none name op value, spec, pe⟩ =
      .error .notImplementedAnyNamespace :=
  ⟨rfl, rfl⟩

/-- C2: for every successfully compiled selector, `never_matches` is
true iff the expression produced by the expression builder is the
literal-false constant, and whenever it is true the matcher returns
false on every element. -/
theorem never_matches_iff_literal_false (ps : ParsedSelector)
    (cs : CompiledSelector) (h : compileSelector ps = .ok cs) (el : Elem) :
    (cs.never_matches = true ↔ compileNode ps.parsed_tree = .ok GExpr.lit0) ∧
    (cs.never_matches = true → cs.test el = false) := by
  cases hc : compileNode ps.parsed_tree with
  | error e =>
    rw [compileSelector, hc, exceptBind_error] at h
    exact absurd h (by simp)
  | ok src =>
    rw [compileSelector, hc, exceptBind_ok] at h
    injection h with h
    subst h
    constructor
    · constructor
      · intro h1
        cases src <;> simp_all [GExpr.isL0]
      · intro h2
        injection h2 with h3
        rw [h3]
        rfl
    · intro h1
      cases src <;> simp_all [GExpr.isL0, evalG]

/-- Parsed selector for `:hover`, used by the C2 witness. -/
def psHover : ParsedSelector := ⟨.pseudoClass "hover", (0, 1, 0), none⟩

/-- Compiled form of `psHover`. -/
def csHover : CompiledSelector :=
  { never_matches := true
    test := fun el => evalG .lit0 el
    specificity := (0, 1, 0)
    pseudo_element := none
    id := none
    class_name := none
    local_name := none
    namespaceHint := none }

/-- Witness for C2 at the concrete selector `:hover`. -/
theorem never_matches_iff_literal_false_witness :
    csHover.never_matches = true ∧ csHover.test elDiv = false := by
  have h := never_matches_iff_literal_false psHover csHover rfl elDiv
  exact ⟨h.1.mpr rfl, h.2 (h.1.mpr rfl)⟩

theorem exceptPure_eq_ok {ε α : Type} (a : α) :
    (pure a : Except ε α) = Except.ok a := rfl

theorem runSelector_eq (s : Selector) (g : GExpr) (h : compileNode s = .ok g)
    (el : Elem) : runSelector s el = some (evalG g el) := by
  rw [runSelector, h]; rfl

/-- C1: for a combined selector whose two sides compile to general
predicates, the matcher is the conjunction of the right-hand (subject)
test and the combinator's left-hand tree search — descendant searches
the strict ancestors, child tests the parent, adjacent sibling tests
the immediately preceding sibling, general sibling searches the
preceding siblings — and the emitted expression is literally
`and2 right (search left)`, whose evaluation (`evalG`) tests the
right-hand operand first and short-circuits, so the left-hand tree
search only runs when the right side already matched. -/
theorem combined_general_general_semantics (L R : Selector) (gl gr : GExpr)
    (hL : compileNode L = .ok gl) (hl0 : gl.isL0 = false) (hl1 : gl.isL1 = false)
    (hR : compileNode R = .ok gr) (hr0 : gr.isL0 = false) (hr1 : gr.isL1 = false)
    (el : Elem) :
    (compileNode (.combined L " " R) = .ok (.and2 gr (.anyAncestor gl)) ∧
      (runSelector (.combined L " " R) el = some true ↔
        (evalG gr el = true ∧ ∃ a ∈ el.iter_ancestors, evalG gl a = true))) ∧
    (compileNode (.combined L ">" R) = .ok (.and2 gr (.parentTest gl)) ∧
      (runSelector (.combined L ">" R) el = some true ↔
        (evalG gr el = true ∧ ∃ p, el.parent = some p ∧ evalG gl p = true))) ∧
    (compileNode (.combined L "+" R) = .ok (.and2 gr (.previousTest gl)) ∧
      (runSelector (.combined L "+" R) el = some true ↔
        (evalG gr el = true ∧ ∃ q, el.previous = some q ∧ evalG gl q = true))) ∧
    (compileNode (.combined L "~" R) = .ok (.and2 gr (.anyPrevSibling gl)) ∧
      (runSelector (.combined L "~" R) el = some true ↔
        (evalG gr el = true ∧ ∃ q ∈ el.iter_previous_siblings, evalG gl q = true))) := by
  have hc1 : compileNode (.combined L " " R) = .ok (.and2 gr (.anyAncestor gl)) := by
    simp [compileNode, hL, hl0, hl1, hR, hr0, hr1, exceptBind_ok, exceptPure_eq_ok]
  have hc2 : compileNode (.combined L ">" R) = .ok (.and2 gr (.parentTest gl)) := by
    simp [compileNode, hL, hl0, hl1, hR, hr0, hr1, exceptBind_ok, exceptPure_eq_ok]
  have hc3 : compileNode (.combined L "+" R) = .ok (.and2 gr (.previousTest gl)) := by
    simp [compileNode, hL, hl0, hl1, hR, hr0, hr1, exceptBind_ok, exceptPure_eq_ok]
  have hc4 : compileNode (.combined L "~" R) = .ok (.and2 gr (.anyPrevSibling gl)) := by
    simp [compileNode, hL, hl0, hl1, hR, hr0, hr1, exceptBind_ok, exceptPure_eq_ok]
  refine ⟨⟨hc1, ?_⟩, ⟨hc2, ?_⟩, ⟨hc3, ?_⟩, ⟨hc4, ?_⟩⟩
  · simp [runSelector_eq _ _ hc1, evalG, List.any_eq_true]
  · cases hp : el.parent with
    | none => simp [runSelector_eq _ _ hc2, evalG, hp]
    | some p => simp [runSelector_eq _ _ hc2, evalG, hp]
  · cases hq : el.previous with
    | none => simp [runSelector_eq _ _ hc3, evalG, hq]
    | some q => simp [runSelector_eq _ _ hc3, evalG, hq]
  · simp [runSelector_eq _ _ hc4, evalG, List.any_eq_true]

/-- Elements for the C1 witness: a parent with class `a` and its child
with class `b`. -/
def elParentA : Elem :=
  .node none none ⟨"p", none, none, ["a"], [], none, "p", 0, ["p"], true, false⟩

/-- Child element of `elParentA` carrying class `b`. -/
def elChildB : Elem :=
  .node (some elParentA) none
    ⟨"span", none, none, ["b"], [], none, "span", 0, ["span"], false, false⟩

/-- Witness for C1: `.a .b` matches the child, via the theorem applied
at the concrete selectors `.a` and `.b`. -/
theorem combined_general_general_semantics_witness :
    runSelector (.combined (.classSel "a") " " (.classSel "b")) elChildB = some true := by
  have h := combined_general_general_semantics (.classSel "a") (.classSel "b")
    (.atom fun el => el.classes.contains "a") (.atom fun el => el.classes.contains "b")
    rfl rfl rfl rfl rfl rfl elChildB
  exact h.1.2.mpr ⟨by decide, elParentA, List.mem_cons_self elParentA [], by decide⟩

theorem isL0_lit0 : GExpr.lit0.isL0 = true := rfl

theorem isL0_lit1 : GExpr.lit1.isL0 = false := rfl

theorem isL1_lit0 : GExpr.lit0.isL1 = false := rfl

theorem isL1_lit1 : GExpr.lit1.isL1 = true := rfl

/-- C4: the three-state simplification of a combined selector.  A
literal-false left side collapses the whole selector to literal-false
(for any combinator string, before the right side is even compiled); a
literal-true left side leaves only the structural existence check
(parent exists for descendant and `>`, previous sibling exists for `+`
and `~`) conjoined with a general right side; a literal-false right
side collapses the selector to literal-false; and a literal-true right
side leaves the left-side existence test alone (the search expression
for a general left, the bare existence check when the left side was
literal-true too). -/
theorem combined_three_state_simplification (L R : Selector) (gl gr : GExpr)
    (comb : String) :
    (compileNode L = .ok .lit0 →
      compileNode (.combined L comb R) = .ok .lit0) ∧
    (compileNode L = .ok .lit1 → compileNode R = .ok gr →
      gr.isL0 = false → gr.isL1 = false →
      (compileNode (.combined L " " R) = .ok (.and2 gr .parentExists) ∧
       compileNode (.combined L ">" R) = .ok (.and2 gr .parentExists) ∧
       compileNode (.combined L "+" R) = .ok (.and2 gr .previousExists) ∧
       compileNode (.combined L "~" R) = .ok (.and2 gr .previousExists))) ∧
    (compileNode L = .ok gl → gl.isL0 = false → compileNode R = .ok .lit0 →
      (compileNode (.combined L " " R) = .ok .lit0 ∧
       compileNode (.combined L ">" R) = .ok .lit0 ∧
       compileNode (.combined L "+" R) = .ok .lit0 ∧
       compileNode (.combined L "~" R) = .ok .lit0)) ∧
    (compileNode L = .ok gl → gl.isL0 = false → gl.isL1 = false →
      compileNode R = .ok .lit1 →
      (compileNode (.combined L " " R) = .ok (.anyAncestor gl) ∧
       compileNode (.combined L ">" R) = .ok (.parentTest gl) ∧
       compileNode (.combined L "+" R) = .ok (.previousTest gl) ∧
       compileNode (.combined L "~" R) = .ok (.anyPrevSibling gl))) ∧
    (compileNode L = .ok .lit1 → compileNode R = .ok .lit1 →
      (compileNode (.combined L " " R) = .ok .parentExists ∧
       compileNode (.combined L ">" R) = .ok .parentExists ∧
       compileNode (.combined L "+" R) = .ok .previousExists ∧
       compileNode (.combined L "~" R) = .ok .previousExists)) := by
  refine ⟨?_, ?_, ?_, ?_, ?_⟩
  · intro hL
    simp [compileNode, hL, exceptBind_ok, exceptPure_eq_ok, isL0_lit0]
  · intro hL hR hr0 hr1
    refine ⟨?_, ?_, ?_, ?_⟩ <;>
      simp [compileNode, hL, hR, hr0, hr1, exceptBind_ok, exceptPure_eq_ok,
            isL0_lit0, isL0_lit1, isL1_lit0, isL1_lit1]
  · intro hL hl0 hR0
    by_cases hl1 : gl.isL1 = true
    · refine ⟨?_, ?_, ?_, ?_⟩ <;>
        simp [compileNode, hL, hl0, hl1, hR0, exceptBind_ok, exceptPure_eq_ok,
              isL0_lit0, isL0_lit1, isL1_lit0, isL1_lit1]
    · rw [Bool.not_eq_true] at hl1
      refine ⟨?_, ?_, ?_, ?_⟩ <;>
        simp [compileNode, hL, hl0, hl1, hR0, exceptBind_ok, exceptPure_eq_ok,
              isL0_lit0, isL0_lit1, isL1_lit0, isL1_lit1]
  · intro hL hl0 hl1 hR1
    refine ⟨?_, ?_, ?_, ?_⟩ <;>
      simp [compileNode, hL, hl0, hl1, hR1, exceptBind_ok, exceptPure_eq_ok,
            isL0_lit0, isL0_lit1, isL1_lit0, isL1_lit1]
  · intro hL hR1
    refine ⟨?_, ?_, ?_, ?_⟩ <;>
      simp [compileNode, hL, hR1, exceptBind_ok, exceptPure_eq_ok,
            isL0_lit0, isL0_lit1, isL1_lit0, isL1_lit1]

/-- Witness for C4: `:hover .b` collapses to literal-false because the
left side compiles to literal-false. -/
theorem combined_three_state_simplification_witness :
    compileNode (.combined (.pseudoClass "hover") " " (.classSel "b")) =
      .ok .lit0 :=
  (combined_three_state_simplification (.pseudoClass "hover") (.classSel "b")
    .lit0 .lit0 " ").1 rfl

/-- Count used by `:nth-child`: preceding siblings. -/
def nthChildCount (el : Elem) : Int := (el.index : Int)

/-- Count used by `:nth-last-child`: following siblings. -/
def nthLastChildCount (el : Elem) : Int :=
  (el.etree_siblings.length : Int) - el.index - 1

/-- Count used by `:nth-of-type`: preceding siblings with this tag. -/
def nthOfTypeCount (el : Elem) : Int :=
  (((el.etree_siblings.take el.index).filter (fun s => s == el.tag)).length : Int)

/-- Count used by `:nth-last-of-type`: following siblings with this
tag. -/
def nthLastOfTypeCount (el : Elem) : Int :=
  (((el.etree_siblings.drop (el.index + 1)).filter (fun s => s == el.tag)).length : Int)

/-- Floor division with zero remainder and nonnegative quotient is
exactly solvability of `x = a * n + (b - 1)` over nonnegative `n`. -/
theorem nth_exists_iff (a b x : Int) (ha : a ≠ 0) :
    (Int.fmod (x - (b - 1)) a = 0 ∧ 0 ≤ Int.fdiv (x - (b - 1)) a) ↔
    ∃ n : Int, 0 ≤ n ∧ x = a * n + (b - 1) := by
  constructor
  · rintro ⟨hr, hq⟩
    refine ⟨Int.fdiv (x - (b - 1)) a, hq, ?_⟩
    have h := Int.fdiv_add_fmod (x - (b - 1)) a
    rw [hr, add_zero] at h
    linarith
  · rintro ⟨n, hn, hx⟩
    have ht : x - (b - 1) = a * n := by rw [hx]; ring
    rw [ht]
    exact ⟨Int.mul_fmod_right a n, by rw [Int.mul_fdiv_cancel_left n ha]; exact hn⟩

/-- Shared shape lemma: a selector whose compiled form is the nth-test
atom for a given count function satisfies the (A, B) matching law. -/
theorem nth_compiled_general (s : Selector) (count : Elem → Int) (a b : Int)
    (hc0 : a = 0 → compileNode s = .ok (.atom (fun el => count el == b - 1)))
    (hcn : a ≠ 0 → compileNode s =
      .ok (.atom (fun el =>
        Int.fmod (count el - (b - 1)) a == 0 &&
        decide (0 ≤ Int.fdiv (count el - (b - 1)) a))))
    (el : Elem) :
    (runSelector s el = some true ↔
      ∃ n : Int, 0 ≤ n ∧ count el = a * n + (b - 1)) ∧
    (a = 0 → (runSelector s el = some true ↔ count el = b - 1)) ∧
    (a ≠ 0 → (runSelector s el = some true ↔
      (Int.fmod (count el - (b - 1)) a = 0 ∧
       0 ≤ Int.fdiv (count el - (b - 1)) a))) := by
  by_cases ha : a = 0
  · have heq : runSelector s el = some (count el == b - 1) :=
      runSelector_eq _ _ (hc0 ha) el
    have hiff : runSelector s el = some true ↔ count el = b - 1 := by
      rw [heq]; simp
    refine ⟨?_, fun _ => hiff, fun hn => absurd ha hn⟩
    rw [hiff, ha]
    constructor
    · intro hx
      exact ⟨0, le_refl 0, by rw [hx]; ring⟩
    · rintro ⟨n, hn, hx⟩
      rw [hx]; ring
  · have heq := runSelector_eq _ _ (hcn ha) el
    have hiff : runSelector s el = some true ↔
        (Int.fmod (count el - (b - 1)) a = 0 ∧
         0 ≤ Int.fdiv (count el - (b - 1)) a) := by
      rw [heq]; simp [evalG]
    refine ⟨?_, fun h0 => absurd h0 ha, fun _ => hiff⟩
    rw [hiff]
    exact nth_exists_iff a b (count el) ha

/-- C3: for every `nth-*` functional pseudo-class compiled from a
parsed `(A, B)` pair, the matcher returns true iff some integer
`n ≥ 0` solves `x = A·n + (B − 1)` for that pseudo-class's relevant
sibling count `x`; when `A = 0` this is the exact equality
`x = B − 1`, and when `A ≠ 0` it is "remainder of `(x − (B − 1))` by
`A` is zero and the (floor) quotient is nonnegative". -/
theorem nth_pseudo_class_arithmetic (a b : Int) (args : FArgs)
    (h : args.nth = some (a, b)) (el : Elem) :
    ((runSelector (.functionalPseudoClass "nth-child" args) el = some true ↔
        ∃ n : Int, 0 ≤ n ∧ nthChildCount el = a * n + (b - 1)) ∧
      (a = 0 → (runSelector (.functionalPseudoClass "nth-child" args) el = some true ↔
        nthChildCount el = b - 1)) ∧
      (a ≠ 0 → (runSelector (.functionalPseudoClass "nth-child" args) el = some true ↔
        (Int.fmod (nthChildCount el - (b - 1)) a = 0 ∧
         0 ≤ Int.fdiv (nthChildCount el - (b - 1)) a)))) ∧
    ((runSelector (.functionalPseudoClass "nth-last-child" args) el = some true ↔
        ∃ n : Int, 0 ≤ n ∧ nthLastChildCount el = a * n + (b - 1)) ∧
      (a = 0 → (runSelector (.functionalPseudoClass "nth-last-child" args) el = some true ↔
        nthLastChildCount el = b - 1)) ∧
      (a ≠ 0 → (runSelector (.functionalPseudoClass "nth-last-child" args) el = some true ↔
        (Int.fmod (nthLastChildCount el - (b - 1)) a = 0 ∧
         0 ≤ Int.fdiv (nthLastChildCount el - (b - 1)) a)))) ∧
    ((runSelector (.functionalPseudoClass "nth-of-type" args) el = some true ↔
        ∃ n : Int, 0 ≤ n ∧ nthOfTypeCount el = a * n + (b - 1)) ∧
      (a = 0 → (runSelector (.functionalPseudoClass "nth-of-type" args) el = some true ↔
        nthOfTypeCount el = b - 1)) ∧
      (a ≠ 0 → (runSelector (.functionalPseudoClass "nth-of-type" args) el = some true ↔
        (Int.fmod (nthOfTypeCount el - (b - 1)) a = 0 ∧
         0 ≤ Int.fdiv (nthOfTypeCount el - (b - 1)) a)))) ∧
    ((runSelector (.functionalPseudoClass "nth-last-of-type" args) el = some true ↔
        ∃ n : Int, 0 ≤ n ∧ nthLastOfTypeCount el = a * n + (b - 1)) ∧
      (a = 0 → (runSelector (.functionalPseudoClass "nth-last-of-type" args) el = some true ↔
        nthLastOfTypeCount el = b - 1)) ∧
      (a ≠ 0 → (runSelector (.functionalPseudoClass "nth-last-of-type" args) el = some true ↔
        (Int.fmod (nthLastOfTypeCount el - (b - 1)) a = 0 ∧
         0 ≤ Int.fdiv (nthLastOfTypeCount el - (b - 1)) a)))) := by
  refine ⟨?_, ?_, ?_, ?_⟩
  · exact nth_compiled_general _ nthChildCount a b
      (fun ha => by simp [compileNode, h, ha, nthChildCount, exceptPure_eq_ok])
      (fun ha => by simp [compileNode, h, ha, nthChildCount, exceptPure_eq_ok])
      el
  · exact nth_compiled_general _ nthLastChildCount a b
      (fun ha => by simp [compileNode, h, ha, nthLastChildCount, exceptPure_eq_ok])
      (fun ha => by simp [compileNode, h, ha, nthLastChildCount, exceptPure_eq_ok])
      el
  · exact nth_compiled_general _ nthOfTypeCount a b
      (fun ha => by simp [compileNode, h, ha, nthOfTypeCount, exceptPure_eq_ok])
      (fun ha => by simp [compileNode, h, ha, nthOfTypeCount, exceptPure_eq_ok])
      el
  · exact nth_compiled_general _ nthLastOfTypeCount a b
      (fun ha => by simp [compileNode, h, ha, nthLastOfTypeCount, exceptPure_eq_ok])
      (fun ha => by simp [compileNode, h, ha, nthLastOfTypeCount, exceptPure_eq_ok])
      el

/-- Arguments of `:nth-child(2n+1)`. -/
def argsOdd : FArgs := ⟨[], some (2, 1)⟩

/-- Element at 0-based sibling index 2. -/
def elIdx2 : Elem :=
  .node none none ⟨"li", none, none, [], [], none, "li", 2, ["li", "li", "li"], false, false⟩

/-- Witness for C3: `:nth-child(2n+1)` matches the element at 0-based
index 2. -/
theorem nth_pseudo_class_arithmetic_witness :
    runSelector (.functionalPseudoClass "nth-child" argsOdd) elIdx2 = some true :=
  (nth_pseudo_class_arithmetic 2 1 argsOdd rfl elIdx2).1.1.mpr
    ⟨1, by decide, by decide⟩

/-- A true `html_tag_eq` test forces the tag to carry the XHTML
namespace marker. -/
theorem html_tag_eq_namespace (names : List String) (el : Elem)
    (h : html_tag_eq names el = true) : ∃ n, el.tag = xhtmlNS ++ n := by
  rw [html_tag_eq, List.any_eq_true] at h
  obtain ⟨n, _, he⟩ := h
  exact ⟨n, by simpa using he⟩

/-- Membership plus the right tag makes `html_tag_eq` true. -/
theorem html_tag_eq_of_mem {names : List String} {el : Elem} {n : String}
    (hn : n ∈ names) (h : el.tag = xhtmlNS ++ n) :
    html_tag_eq names el = true := by
  rw [html_tag_eq, List.any_eq_true]
  exact ⟨n, hn, by simp [h]⟩

/-- A tag matching none of the names makes `html_tag_eq` false. -/
theorem html_tag_eq_eq_false {names : List String} {el : Elem}
    (h : ∀ n ∈ names, el.tag ≠ xhtmlNS ++ n) :
    html_tag_eq names el = false := by
  simp only [html_tag_eq, List.any_eq_false]
  intro n hn
  simpa using h n hn

/-- C9: the tag-restricted pseudo-classes `:link`, `:enabled`,
`:disabled` and `:checked` can only match an element whose etree tag
carries the XHTML namespace marker; a tag without that marker never
matches any of them. -/
theorem tag_restricted_pseudo_classes_need_xhtml (el : Elem) (e : GExpr) :
    (compileNode (.pseudoClass "link") = .ok e → evalG e el = true →
      ∃ n, el.tag = xhtmlNS ++ n) ∧
    (compileNode (.pseudoClass "enabled") = .ok e → evalG e el = true →
      ∃ n, el.tag = xhtmlNS ++ n) ∧
    (compileNode (.pseudoClass "disabled") = .ok e → evalG e el = true →
      ∃ n, el.tag = xhtmlNS ++ n) ∧
    (compileNode (.pseudoClass "checked") = .ok e → evalG e el = true →
      ∃ n, el.tag = xhtmlNS ++ n) := by
  refine ⟨?_, ?_, ?_, ?_⟩
  · intro hc hev
    rw [show compileNode (.pseudoClass "link") =
        .ok (.atom (fun el => html_tag_eq ["a", "area", "link"] el &&
          (el.get_attr "href").isSome)) from rfl] at hc
    injection hc with hc
    subst hc
    simp only [evalG, Bool.and_eq_true] at hev
    exact html_tag_eq_namespace _ _ hev.1
  · intro hc hev
    rw [show compileNode (.pseudoClass "enabled") =
        .ok (.atom (fun el =>
          (html_tag_eq ["button", "input", "select", "textarea",
                        "option", "optgroup", "menuitem", "fieldset"] el &&
           (el.get_attr "disabled").isNone) ||
          (html_tag_eq ["a", "area", "link"] el &&
           (el.get_attr "href").isSome))) from rfl] at hc
    injection hc with hc
    subst hc
    simp only [evalG, Bool.or_eq_true, Bool.and_eq_true] at hev
    rcases hev with ⟨h1, _⟩ | ⟨h1, _⟩ <;> exact html_tag_eq_namespace _ _ h1
  · intro hc hev
    rw [show compileNode (.pseudoClass "disabled") =
        .ok (.atom (fun el =>
          html_tag_eq ["button", "input", "select", "textarea",
                       "option", "optgroup", "menuitem", "fieldset"] el &&
          (el.get_attr "disabled").isSome)) from rfl] at hc
    injection hc with hc
    subst hc
    simp only [evalG, Bool.and_eq_true] at hev
    exact html_tag_eq_namespace _ _ hev.1
  · intro hc hev
    rw [show compileNode (.pseudoClass "checked") =
        .ok (.atom (fun el =>
          (html_tag_eq ["input", "menuitem"] el &&
           (el.get_attr "checked").isSome) ||
          (html_tag_eq ["option"] el &&
           (el.get_attr "selected").isSome))) from rfl] at hc
    injection hc with hc
    subst hc
    simp only [evalG, Bool.or_eq_true, Bool.and_eq_true] at hev
    rcases hev with ⟨h1, _⟩ | ⟨h1, _⟩ <;> exact html_tag_eq_namespace _ _ h1

/-- XHTML-namespaced anchor element with an `href` attribute. -/
def elXhtmlA : Elem :=
  .node none none
    ⟨"a", some "http://www.w3.org/1999/xhtml", none, [], [("href", "x")], none,
     xhtmlNS ++ "a", 0, [xhtmlNS ++ "a"], false, false⟩

/-- Witness for C9: the `:link` matcher accepts `elXhtmlA`, whose tag
therefore carries the XHTML marker. -/
theorem tag_restricted_pseudo_classes_need_xhtml_witness :
    ∃ n, elXhtmlA.tag = xhtmlNS ++ n :=
  (tag_restricted_pseudo_classes_need_xhtml elXhtmlA
    (.atom (fun el => html_tag_eq ["a", "area", "link"] el &&
      (el.get_attr "href").isSome))).1 rfl (by decide)

/-- C10: on an XHTML `a`, `area` or `link` element, `:enabled` holds
iff an `href` attribute is present — a `disabled` attribute is
irrelevant there — while on the form-control tag set the `:enabled`
matcher is exactly the absence of the `disabled` attribute. -/
theorem enabled_anchor_href_semantics (el : Elem) :
    ((el.tag = xhtmlNS ++ "a" ∨ el.tag = xhtmlNS ++ "area" ∨
      el.tag = xhtmlNS ++ "link") →
      runSelector (.pseudoClass "enabled") el =
        some (el.get_attr "href").isSome) ∧
    ((el.tag = xhtmlNS ++ "button" ∨ el.tag = xhtmlNS ++ "input" ∨
      el.tag = xhtmlNS ++ "select" ∨ el.tag = xhtmlNS ++ "textarea" ∨
      el.tag = xhtmlNS ++ "option" ∨ el.tag = xhtmlNS ++ "optgroup" ∨
      el.tag = xhtmlNS ++ "menuitem" ∨ el.tag = xhtmlNS ++ "fieldset") →
      runSelector (.pseudoClass "enabled") el =
        some (el.get_attr "disabled").isNone) := by
  have hc : compileNode (.pseudoClass "enabled") =
      .ok (.atom (fun el =>
        (html_tag_eq ["button", "input", "select", "textarea",
                      "option", "optgroup", "menuitem", "fieldset"] el &&
         (el.get_attr "disabled").isNone) ||
        (html_tag_eq ["a", "area", "link"] el &&
         (el.get_attr "href").isSome))) := rfl
  constructor
  · intro h
    have hanchor : html_tag_eq ["a", "area", "link"] el = true := by
      rcases h with h | h | h <;> exact html_tag_eq_of_mem (by simp) h
    have hform : html_tag_eq ["button", "input", "select", "textarea",
        "option", "optgroup", "menuitem", "fieldset"] el = false := by
      apply html_tag_eq_eq_false
      intro n hn
      rcases h with h | h | h <;> rw [h] <;> fin_cases hn <;> decide
    rw [runSelector_eq _ _ hc el]
    simp [evalG, hanchor, hform]
  · intro h
    have hform : html_tag_eq ["button", "input", "select", "textarea",
        "option", "optgroup", "menuitem", "fieldset"] el = true := by
      rcases h with h | h | h | h | h | h | h | h <;>
        exact html_tag_eq_of_mem (by simp) h
    have hanchor : html_tag_eq ["a", "area", "link"] el = false := by
      apply html_tag_eq_eq_false
      intro n hn
      rcases h with h | h | h | h | h | h | h | h <;> rw [h] <;>
        fin_cases hn <;> decide
    rw [runSelector_eq _ _ hc el]
    simp [evalG, hanchor, hform]

/-- XHTML-namespaced anchor that carries both `href` and `disabled`
attributes. -/
def elXhtmlADisabled : Elem :=
  .node none none
    ⟨"a", some "http://www.w3.org/1999/xhtml", none, [],
     [("href", "x"), ("disabled", "")], none,
     xhtmlNS ++ "a", 0, [xhtmlNS ++ "a"], false, false⟩

/-- Witness for C10: the anchor with `href` and `disabled` still
matches `:enabled`. -/
theorem enabled_anchor_href_semantics_witness :
    runSelector (.pseudoClass "enabled") elXhtmlADisabled = some true :=
  ((enabled_anchor_href_semantics elXhtmlADisabled).1 (Or.inl rfl)).trans
    (by decide)

/-- Ident of an ID simple selector, if any. -/
def idOf : Selector → Option String
  | .idSel i => some i
  | _ => none

/-- Class name of a class simple selector, if any. -/
def classOf : Selector → Option String
  | .classSel c => some c
  | _ => none

/-- Name of a local-name simple selector, if any. -/
def localNameOf : Selector → Option String
  | .localName n => some n
  | _ => none

/-- URL of a namespace simple selector, if any. -/
def namespaceOf : Selector → Option String
  | .namespaceSel u => some u
  | _ => none

/-- Hint of the LAST selector in the list matched by `f` (later
entries take precedence), stated independently of the fold that
implements the extraction loop. -/
def lastHint (f : Selector → Option String) : List Selector → Option String
  | [] => none
  | s :: t => (lastHint f t).or (f s)

theorem hint_foldl_general (ss : List Selector)
    (acc : Option String × Option String × Option String × Option String) :
    ss.foldl
      (fun acc s =>
        match s with
        | .idSel i => (some i, acc.2.1, acc.2.2.1, acc.2.2.2)
        | .classSel c => (acc.1, some c, acc.2.2.1, acc.2.2.2)
        | .localName n => (acc.1, acc.2.1, some n, acc.2.2.2)
        | .namespaceSel u => (acc.1, acc.2.1, acc.2.2.1, some u)
        | _ => acc)
      acc =
    ((lastHint idOf ss).or acc.1, (lastHint classOf ss).or acc.2.1,
     (lastHint localNameOf ss).or acc.2.2.1,
     (lastHint namespaceOf ss).or acc.2.2.2) := by
  induction ss generalizing acc with
  | nil => simp [lastHint]
  | cons s t ih =>
    rw [List.foldl_cons, ih]
    cases s <;>
      simp [lastHint, idOf, classOf, localNameOf, namespaceOf,
            Option.or_assoc, Option.or_none, Option.none_or, Option.or_some]

/-- The extraction loop records, for each hint kind, the value of the
last simple selector of that kind. -/
theorem extractHints_eq (ss : List Selector) :
    extractHints ss =
      (lastHint idOf ss, lastHint classOf ss, lastHint localNameOf ss,
       lastHint namespaceOf ss) := by
  rw [extractHints, hint_foldl_general]
  simp [Option.or_none]

/-- Parsed selector `#a#b`: a compound with two ID selectors. -/
def psDoubleId : ParsedSelector :=
  ⟨.compound false [.idSel "a", .idSel "b"], (2, 0, 0), none⟩

/-- Counterexample to C5 as stated: on the compound `#a#b` the
recorded id hint is `"b"` — the ident of the LAST ID selector — not
`"a"`, the ident of the first one. -/
theorem first_id_hint_counterexample :
    (compileSelector psDoubleId).toOption.map (fun cs => cs.id) =
      some (some "b") ∧
    ¬((compileSelector psDoubleId).toOption.map (fun cs => cs.id) =
      some (some "a")) := by
  constructor
  · rfl
  · decide

/-- C5 (amended): the fast-reject hints are taken only from the direct
simple selectors of the subject compound (the right side of a
top-level combined selector), and for each of the four kinds the
recorded value is that of the LAST simple selector of that kind in
the compound; combinators are never descended into. -/
theorem hints_from_subject_compound_last (ps : ParsedSelector)
    (cs : CompiledSelector) (neg : Bool) (ss : List Selector)
    (h : compileSelector ps = .ok cs)
    (hs : subjectNode ps.parsed_tree = .compound neg ss) :
    cs.id = lastHint idOf ss ∧ cs.class_name = lastHint classOf ss ∧
    cs.local_name = lastHint localNameOf ss ∧
    cs.namespaceHint = lastHint namespaceOf ss := by
  cases hc : compileNode ps.parsed_tree with
  | error e =>
    rw [compileSelector, hc, exceptBind_error] at h
    exact absurd h (by simp)
  | ok src =>
    rw [compileSelector, hc, exceptBind_ok] at h
    injection h with h
    subst h
    simp [hs, subjectSimples, extractHints_eq]

/-- Compiled form of `psDoubleId`. -/
def csDoubleId : CompiledSelector :=
  { never_matches := false
    test := fun el => evalG
      (.and2 (.atom fun el => el.id == some "a")
             (.atom fun el => el.id == some "b")) el
    specificity := (2, 0, 0)
    pseudo_element := none
    id := some "b"
    class_name := none
    local_name := none
    namespaceHint := none }

/-- Witness for the amended C5 at the concrete compound `#a#b`. -/
theorem hints_from_subject_compound_last_witness : csDoubleId.id = some "b" :=
  (hints_from_subject_compound_last psDoubleId csDoubleId false
    [.idSel "a", .idSel "b"] rfl rfl).1.trans rfl

/-- An empty split means every character was whitespace. -/
theorem splitW_eq_nil_all (p : Char → Bool) (l : List Char)
    (h : splitW p l = []) : l.all p = true := by
  induction l with
  | nil => rfl
  | cons c cs ih =>
    rw [splitW] at h
    by_cases hc : p c = true
    · rw [if_pos hc] at h
      simp [hc, ih h]
    · rw [if_neg hc] at h
      exact absurd h (by simp)

theorem stripW_length_le (p : Char → Bool) (l : List Char) :
    (stripW p l).length ≤ (l.dropWhile p).length := by
  rw [stripW, List.length_reverse]
  calc ((l.dropWhile p).reverse.dropWhile p).length
      ≤ (l.dropWhile p).reverse.length := (List.dropWhile_sublist _).length_le
    _ = (l.dropWhile p).length := List.length_reverse _

/-- A strip fixpoint already has no leading whitespace. -/
theorem stripW_eq_self_dropWhile (p : Char → Bool) (l : List Char)
    (h : stripW p l = l) : l.dropWhile p = l := by
  have h1 := (List.dropWhile_sublist (l := l) p).length_le
  have h2 := stripW_length_le p l
  rw [h] at h2
  exact (List.dropWhile_sublist p).eq_of_length (Nat.le_antisymm h1 h2)

/-- A strip fixpoint also has no trailing whitespace. -/
theorem stripW_eq_self_rev (p : Char → Bool) (l : List Char)
    (h : stripW p l = l) : l.reverse.dropWhile p = l.reverse := by
  have hA := stripW_eq_self_dropWhile p l h
  rw [stripW, hA] at h
  have h2 := congrArg List.reverse h
  rwa [List.reverse_reverse] at h2

/-- A nonempty strip fixpoint starts with a non-whitespace character. -/
theorem head_not_ws (p : Char → Bool) (c : Char) (cs : List Char)
    (h : stripW p (c :: cs) = c :: cs) : p c = false := by
  by_contra hcf
  rw [Bool.not_eq_false] at hcf
  have hA := stripW_eq_self_dropWhile p _ h
  rw [List.dropWhile_cons, if_pos hcf] at hA
  have hle := (List.dropWhile_sublist (l := cs) p).length_le
  have hlen := congrArg List.length hA
  simp only [List.length_cons] at hlen
  omega

/-- A strip fixpoint that splits into exactly one token is nonempty
and free of whitespace. -/
theorem splitW_stripW_single (p : Char → Bool) (l : List Char)
    (h1 : (splitW p l).length = 1) (h2 : stripW p l = l) :
    l ≠ [] ∧ l.all (fun c => !p c) = true := by
  cases l with
  | nil => simp [splitW] at h1
  | cons c cs =>
    have hc : p c = false := head_not_ws p c cs h2
    refine ⟨by simp, ?_⟩
    rw [splitW, if_neg (by simp [hc])] at h1
    simp only [List.length_cons] at h1
    have hre : splitW p (cs.dropWhile (fun d => !p d)) = [] :=
      List.length_eq_zero.mp (by omega)
    have hall := splitW_eq_nil_all p _ hre
    cases hres : cs.dropWhile (fun d => !p d) with
    | nil =>
      have htk : cs.takeWhile (fun d => !p d) = cs := by
        have hsp := List.takeWhile_append_dropWhile (p := fun d => !p d) (l := cs)
        rw [hres, List.append_nil] at hsp
        exact hsp
      have hmem : ∀ x ∈ cs, p x = false := by
        intro x hx
        rw [← htk] at hx
        have hxx := List.mem_takeWhile_imp (p := fun d => !p d) hx
        simpa using hxx
      simp only [List.all_cons, List.all_eq_true, hc, Bool.not_false,
                 Bool.true_and]
      intro x hx
      simp [hmem x hx]
    | cons r rs =>
      exfalso
      rw [hres] at hall
      have hB := stripW_eq_self_rev p _ h2
      have hcs : cs = cs.takeWhile (fun d => !p d) ++ (r :: rs) := by
        have hsp := List.takeWhile_append_dropWhile (p := fun d => !p d) (l := cs)
        rw [hres] at hsp
        exact hsp.symm
      obtain ⟨w, ws', hw⟩ :=
        List.exists_cons_of_ne_nil (l := (r :: rs).reverse) (by simp)
      have hpw : p w = true := by
        have hwm : w ∈ (r :: rs).reverse := by
          rw [hw]; exact List.mem_cons_self _ _
        rw [List.mem_reverse] at hwm
        exact List.all_eq_true.mp hall w hwm
      have hrev : (c :: cs).reverse =
          w :: (ws' ++ ((cs.takeWhile (fun d => !p d)).reverse ++ [c])) := by
        conv_lhs => rw [hcs]
        simp [List.reverse_append, hw]
      rw [hrev, List.dropWhile_cons, if_pos hpw] at hB
      have hle := (List.dropWhile_sublist
        (l := ws' ++ ((cs.takeWhile (fun d => !p d)).reverse ++ [c])) p).length_le
      have hlen := congrArg List.length hB
      simp only [List.length_cons] at hlen
      omega

/-- Python-level: one split token plus strip fixpoint means the string
is a single non-whitespace token. -/
theorem single_token_of_split_strip (v : String)
    (h1 : (pySplit v).length = 1) (h2 : pyStrip v = v) :
    v ≠ "" ∧ v.toList.all (fun c => !isPySpace c) = true := by
  have hl1 : (splitW isPySpace v.toList).length = 1 := by
    rw [pySplit, List.length_map] at h1
    exact h1
  have hl2 : stripW isPySpace v.toList = v.toList := by
    have h3 := congrArg String.toList h2
    exact h3
  obtain ⟨hne, hall⟩ := splitW_stripW_single isPySpace v.toList hl1 hl2
  refine ⟨?_, hall⟩
  intro hv
  rw [hv] at hne
  exact hne rfl

/-- C7: a `~=` attribute selector whose operand is not a single
non-whitespace token compiles to literal-false and its matcher rejects
every element; `^=`, `$=` and `*=` with an empty operand likewise
compile to literal-false. -/
theorem attr_selectors_forced_never_match (ns name value : String) (el : Elem)
    (hv : ¬(value ≠ "" ∧ value.toList.all (fun c => !isPySpace c) = true)) :
    (compileNode (.attrib (some ns) name (some "~=") value) = .ok .lit0 ∧
      runSelector (.attrib (some ns) name (some "~=") value) el = some false) ∧
    (compileNode (.attrib (some ns) name (some "^=") "") = .ok .lit0 ∧
      runSelector (.attrib (some ns) name (some "^=") "") el = some false) ∧
    (compileNode (.attrib (some ns) name (some "$=") "") = .ok .lit0 ∧
      runSelector (.attrib (some ns) name (some "$=") "") el = some false) ∧
    (compileNode (.attrib (some ns) name (some "*=") "") = .ok .lit0 ∧
      runSelector (.attrib (some ns) name (some "*=") "") el = some false) := by
  have hcond : ((pySplit value).length != 1 || pyStrip value != value) = true := by
    by_contra hcf
    rw [Bool.not_eq_true, Bool.or_eq_false_iff] at hcf
    obtain ⟨hs1, hs2⟩ := hcf
    rw [bne_eq_false_iff_eq] at hs1 hs2
    exact hv (single_token_of_split_strip value hs1 hs2)
  have hc1 : compileNode (.attrib (some ns) name (some "~=") value) = .ok .lit0 := by
    simp [compileNode, hcond, exceptPure_eq_ok]
  have hc2 : compileNode (.attrib (some ns) name (some "^=") "") = .ok .lit0 := by
    simp [compileNode, exceptPure_eq_ok]
  have hc3 : compileNode (.attrib (some ns) name (some "$=") "") = .ok .lit0 := by
    simp [compileNode, exceptPure_eq_ok]
  have hc4 : compileNode (.attrib (some ns) name (some "*=") "") = .ok .lit0 := by
    simp [compileNode, exceptPure_eq_ok]
  exact ⟨⟨hc1, by rw [runSelector_eq _ _ hc1 el]; rfl⟩,
         ⟨hc2, by rw [runSelector_eq _ _ hc2 el]; rfl⟩,
         ⟨hc3, by rw [runSelector_eq _ _ hc3 el]; rfl⟩,
         ⟨hc4, by rw [runSelector_eq _ _ hc4 el]; rfl⟩⟩

/-- Witness for C7 at the multi-token operand `"foo bar"`. -/
theorem attr_selectors_forced_never_match_witness :
    runSelector (.attrib (some "") "class" (some "~=") "foo bar") elDiv =
      some false :=
  ((attr_selectors_forced_never_match "" "class" "foo bar" elDiv
    (by decide)).1).2
